import Mathlib

set_option maxRecDepth 4000

namespace UrlShortener

/-! # Shallow embedding of the URL shortener core (src/main.py)

The core is three operations over a two-tier store: an in-process dict
`url_cache` bounded by `CACHE_SIZE = 100`, and a DynamoDB table keyed by
`short_code`.  Short codes are the first 8 hex characters of the SHA-256
digest of the long URL.  DynamoDB availability is modelled by a boolean
`dbOk`: when false, every DynamoDB call raises a non-conditional
`ClientError`, which the code catches. -/

/-! ## SHA-256 (semantics of Python `hashlib.sha256`, FIPS 180-4), on `Nat` mod 2^32 -/

def M32 : Nat := 4294967296

def add32 (a b : Nat) : Nat := (a + b) % M32

def rotr32 (n x : Nat) : Nat := ((x >>> n) ||| (x <<< (32 - n))) % M32

def chFn (x y z : Nat) : Nat := (x &&& y) ^^^ ((x ^^^ 4294967295) &&& z)

def majFn (x y z : Nat) : Nat := (x &&& y) ^^^ (x &&& z) ^^^ (y &&& z)

def bigSigma0 (x : Nat) : Nat := rotr32 2 x ^^^ rotr32 13 x ^^^ rotr32 22 x

def bigSigma1 (x : Nat) : Nat := rotr32 6 x ^^^ rotr32 11 x ^^^ rotr32 25 x

def smallSigma0 (x : Nat) : Nat := rotr32 7 x ^^^ rotr32 18 x ^^^ (x >>> 3)

def smallSigma1 (x : Nat) : Nat := rotr32 17 x ^^^ rotr32 19 x ^^^ (x >>> 10)

def K256 : List Nat :=
  [1116352408, 1899447441, 3049323471, 3921009573, 961987163,
   1508970993, 2453635748, 2870763221, 3624381080, 310598401,
   607225278, 1426881987, 1925078388, 2162078206, 2614888103,
   3248222580, 3835390401, 4022224774, 264347078, 604807628,
   770255983, 1249150122, 1555081692, 1996064986, 2554220882,
   2821834349, 2952996808, 3210313671, 3336571891, 3584528711,
   113926993, 338241895, 666307205, 773529912, 1294757372,
   1396182291, 1695183700, 1986661051, 2177026350, 2456956037,
   2730485921, 2820302411, 3259730800, 3345764771, 3516065817,
   3600352804, 4094571909, 275423344, 430227734, 506948616,
   659060556, 883997877, 958139571, 1322822218, 1537002063,
   1747873779, 1955562222, 2024104815, 2227730452, 2361852424,
   2428436474, 2756734187, 3204031479, 3329325298]

abbrev Hash8 := Nat × Nat × Nat × Nat × Nat × Nat × Nat × Nat

def H0 : Hash8 :=
  (1779033703, 3144134277, 1013904242, 2773480762,
   1359893119, 2600822924, 528734635, 1541459225)

def shaRound (st : Hash8) (kw : Nat × Nat) : Hash8 :=
  let (a, b, c, d, e, f, g, h) := st
  let t1 := add32 h (add32 (bigSigma1 e) (add32 (chFn e f g) (add32 kw.1 kw.2)))
  let t2 := add32 (bigSigma0 a) (majFn a b c)
  (add32 t1 t2, a, b, c, add32 d t1, e, f, g)

def bytesToWords : List Nat → List Nat
  | b0 :: b1 :: b2 :: b3 :: rest =>
      (((b0 * 256 + b1) * 256 + b2) * 256 + b3) :: bytesToWords rest
  | _ => []

def stepW (w : List Nat) : List Nat :=
  let t := w.length
  w ++ [add32 (add32 (smallSigma1 (w.getD (t - 2) 0)) (w.getD (t - 7) 0))
          (add32 (smallSigma0 (w.getD (t - 15) 0)) (w.getD (t - 16) 0))]

def schedule (block : List Nat) : List Nat := Nat.iterate stepW 48 (bytesToWords block)

def compressBlock (H : Hash8) (block : List Nat) : Hash8 :=
  let (a0, b0, c0, d0, e0, f0, g0, h0) := H
  let (a, b, c, d, e, f, g, h) := (K256.zip (schedule block)).foldl shaRound H
  (add32 a0 a, add32 b0 b, add32 c0 c, add32 d0 d, add32 e0 e, add32 f0 f, add32 g0 g, add32 h0 h)

def sha256pad (msg : List Nat) : List Nat :=
  let bitLen := msg.length * 8
  let zeros := (119 - msg.length % 64) % 64
  msg ++ [128] ++ List.replicate zeros 0 ++
    [(bitLen >>> 56) % 256, (bitLen >>> 48) % 256, (bitLen >>> 40) % 256, (bitLen >>> 32) % 256,
     (bitLen >>> 24) % 256, (bitLen >>> 16) % 256, (bitLen >>> 8) % 256, bitLen % 256]

def chunksAux : Nat → List Nat → List (List Nat)
  | 0, _ => []
  | _ + 1, [] => []
  | fuel + 1, x :: xs => (x :: xs).take 64 :: chunksAux fuel ((x :: xs).drop 64)

def chunks64 (l : List Nat) : List (List Nat) := chunksAux l.length l

def hexDigit (n : Nat) : Char := if n < 10 then Char.ofNat (48 + n) else Char.ofNat (87 + n)

def wordToHex (w : Nat) : List Char :=
  [hexDigit ((w >>> 28) % 16), hexDigit ((w >>> 24) % 16), hexDigit ((w >>> 20) % 16),
   hexDigit ((w >>> 16) % 16), hexDigit ((w >>> 12) % 16), hexDigit ((w >>> 8) % 16),
   hexDigit ((w >>> 4) % 16), hexDigit (w % 16)]

def sha256_hexChars (msg : List Nat) : List Char :=
  let (a, b, c, d, e, f, g, h) := (chunks64 (sha256pad msg)).foldl compressBlock H0
  wordToHex a ++ wordToHex b ++ wordToHex c ++ wordToHex d ++
    wordToHex e ++ wordToHex f ++ wordToHex g ++ wordToHex h

def sha256_hexdigest (msg : List Nat) : String := ⟨sha256_hexChars msg⟩

def utf8EncodeCharNat (c : Char) : List Nat :=
  let n := c.toNat
  if n < 128 then [n]
  else if n < 2048 then [192 ||| (n >>> 6), 128 ||| (n &&& 63)]
  else if n < 65536 then [224 ||| (n >>> 12), 128 ||| ((n >>> 6) &&& 63), 128 ||| (n &&& 63)]
  else [240 ||| (n >>> 18), 128 ||| ((n >>> 12) &&& 63), 128 ||| ((n >>> 6) &&& 63),
        128 ||| (n &&& 63)]

def utf8Bytes (s : String) : List Nat := s.data.flatMap utf8EncodeCharNat

/-- `hashlib.sha256(long_url.encode()).hexdigest()[:8]` from src/main.py line 23. -/
def derive_code (u : String) : String := ⟨(sha256_hexChars (utf8Bytes u)).take 8⟩

def isHexChar (c : Char) : Bool :=
  (48 ≤ c.toNat && c.toNat ≤ 57) || (97 ≤ c.toNat && c.toNat ≤ 102)

/-! ## The two-tier store -/

structure UrlRecord where
  long_url : String
  created_at : Nat
  clicks : Nat
deriving DecidableEq

/-- Python dict lookup on an association list. -/
def alookup : List (String × UrlRecord) → String → Option UrlRecord
  | [], _ => none
  | (k, v) :: rest, k2 => if k = k2 then some v else alookup rest k2

/-- Python dict assignment: replace in place if the key is present, else append. -/
def ainsert : List (String × UrlRecord) → String → UrlRecord → List (String × UrlRecord)
  | [], k, v => [(k, v)]
  | (k2, v2) :: rest, k, v => if k2 = k then (k, v) :: rest else (k2, v2) :: ainsert rest k v

/-- `url_cache` (in-process dict) together with the DynamoDB table contents. -/
structure StoreState where
  cache : List (String × UrlRecord)
  table : List (String × UrlRecord)
deriving DecidableEq

def CACHE_SIZE : Nat := 100

def emptyState : StoreState := ⟨[], []⟩

/-- Python `s.startswith(p)`. -/
def startsWithPy (s p : String) : Bool := p.data.isPrefixOf s.data

/-- `long_url.startswith(('http://', 'https://'))` from src/main.py line 161. -/
def hasScheme (u : String) : Bool := startsWithPy u "http://" || startsWithPy u "https://"

/-- Scheme normalization performed before `shorten_url` (src/main.py lines 160-162). -/
def normalize_url (u : String) : String := if hasScheme u then u else "https://" ++ u

/-- `shorten_url` (src/main.py lines 20-60).  `dbOk = true`: the conditional
`put_item` succeeds when the key is absent and raises
`ConditionalCheckFailedException` when it is present (caught, code returned,
no cache write).  `dbOk = false`: `put_item` raises another `ClientError`
(caught; fallback to cache-only storage).  `now` is `int(time.time())`. -/
def shorten_url (dbOk : Bool) (now : Nat) (s : StoreState) (long_url : String) :
    String × StoreState :=
  let long_url_hash := derive_code long_url
  let newRec : UrlRecord := ⟨long_url, now, 0⟩
  if dbOk then
    if (alookup s.table long_url_hash).isSome then
      (long_url_hash, s)
    else
      let s1 : StoreState := ⟨s.cache, ainsert s.table long_url_hash newRec⟩
      if s1.cache.length < CACHE_SIZE then
        (long_url_hash, ⟨ainsert s1.cache long_url_hash newRec, s1.table⟩)
      else
        (long_url_hash, s1)
  else
    if s.cache.length < CACHE_SIZE then
      (long_url_hash, ⟨ainsert s.cache long_url_hash newRec, s.table⟩)
    else
      (long_url_hash, s)

/-- `redirect_url` (src/main.py lines 63-94).  On a cache hit the cached click
count is incremented.  On a cache miss with `dbOk = true`, the table item is
fetched, the table click count is incremented, and the item *as fetched*
(pre-increment) is placed in the cache if there is room.  On a cache miss with
`dbOk = false` the `ClientError` is caught and `None` returned. -/
def redirect_url (dbOk : Bool) (s : StoreState) (short_url : String) :
    Option String × StoreState :=
  match alookup s.cache short_url with
  | some r =>
      (some r.long_url, ⟨ainsert s.cache short_url ⟨r.long_url, r.created_at, r.clicks + 1⟩, s.table⟩)
  | none =>
      if dbOk then
        match alookup s.table short_url with
        | some r =>
            let s1 : StoreState :=
              ⟨s.cache, ainsert s.table short_url ⟨r.long_url, r.created_at, r.clicks + 1⟩⟩
            if s1.cache.length < CACHE_SIZE then
              (some r.long_url, ⟨ainsert s1.cache short_url r, s1.table⟩)
            else
              (some r.long_url, s1)
        | none => (none, s)
      else
        (none, s)

structure UrlStats where
  short_code : String
  long_url : String
  created_at : Nat
  clicks : Nat
deriving DecidableEq

/-- `get_url_stats` (src/main.py lines 97-124): cache-first read-only lookup. -/
def get_url_stats (dbOk : Bool) (s : StoreState) (short_url : String) :
    Option UrlStats × StoreState :=
  match alookup s.cache short_url with
  | some item => (some ⟨short_url, item.long_url, item.created_at, item.clicks⟩, s)
  | none =>
      if dbOk then
        match alookup s.table short_url with
        | some item => (some ⟨short_url, item.long_url, item.created_at, item.clicks⟩, s)
        | none => (none, s)
      else
        (none, s)

/-- The spec's `create`: scheme normalization (done by the request adapter at
src/main.py lines 160-164) followed by `shorten_url`. -/
def create (dbOk : Bool) (now : Nat) (s : StoreState) (u : String) : String × StoreState :=
  shorten_url dbOk now s (normalize_url u)

/-- Iterate `redirect_url` n times on the same code, keeping the state. -/
def resolveN (dbOk : Bool) (c : String) : Nat → StoreState → StoreState
  | 0, s => s
  | n + 1, s => resolveN dbOk c n (redirect_url dbOk s c).2

/-! ## Validation of the SHA-256 embedding against FIPS 180-4 test vectors -/

theorem sha256_vector_abc :
    sha256_hexdigest (utf8Bytes "abc") =
      "ba7816bf8f01cfea414140de5dae2223b00361a396177a9cb410ff61f20015ad" := by
  decide

theorem sha256_vector_empty :
    sha256_hexdigest (utf8Bytes "") =
      "e3b0c44298fc1c149afbf4c8996fb92427ae41e4649b934ca495991b7852b855" := by
  decide

/-! ## Association-list (Python dict) lemma kit -/

theorem alookup_ainsert_self (m : List (String × UrlRecord)) (k : String) (v : UrlRecord) :
    alookup (ainsert m k v) k = some v := by
  induction m with
  | nil => simp [ainsert, alookup]
  | cons hd tl ih =>
      obtain ⟨k2, v2⟩ := hd
      by_cases h : k2 = k
      · subst h; simp [ainsert, alookup]
      · simp [ainsert, alookup, h, ih]

theorem alookup_ainsert_ne (m : List (String × UrlRecord)) (k k2 : String) (v : UrlRecord)
    (h : k ≠ k2) : alookup (ainsert m k v) k2 = alookup m k2 := by
  induction m with
  | nil => simp [ainsert, alookup, h]
  | cons hd tl ih =>
      obtain ⟨k3, v3⟩ := hd
      by_cases h2 : k3 = k
      · subst h2; simp [ainsert, alookup, h]
      · simp only [ainsert, if_neg h2]
        by_cases h3 : k3 = k2
        · subst h3; simp [alookup]
        · simp [alookup, h3, ih]

theorem length_ainsert_le (m : List (String × UrlRecord)) (k : String) (v : UrlRecord) :
    (ainsert m k v).length ≤ m.length + 1 := by
  induction m with
  | nil => simp [ainsert]
  | cons hd tl ih =>
      obtain ⟨k2, v2⟩ := hd
      by_cases h : k2 = k
      · simp [ainsert, h]
      · simp [ainsert, h]
        omega

theorem length_ainsert_of_isSome (m : List (String × UrlRecord)) (k : String) (v : UrlRecord)
    (h : (alookup m k).isSome) : (ainsert m k v).length = m.length := by
  induction m with
  | nil => simp [alookup] at h
  | cons hd tl ih =>
      obtain ⟨k2, v2⟩ := hd
      by_cases h2 : k2 = k
      · simp [ainsert, h2]
      · simp [alookup, h2] at h
        simp [ainsert, h2, ih h]

theorem isSome_alookup_ainsert (m : List (String × UrlRecord)) (k k2 : String) (v : UrlRecord)
    (h : (alookup m k2).isSome) : (alookup (ainsert m k v) k2).isSome := by
  by_cases h2 : k = k2
  · subst h2; simp [alookup_ainsert_self]
  · rw [alookup_ainsert_ne m k k2 v h2]; exact h

theorem alookup_ainsert_isSome_eq (m : List (String × UrlRecord)) (k : String) (v : UrlRecord)
    (h : (alookup m k).isSome) (k2 : String) :
    (alookup (ainsert m k v) k2).isSome = (alookup m k2).isSome := by
  by_cases h2 : k = k2
  · subst h2; simp [alookup_ainsert_self, h]
  · rw [alookup_ainsert_ne m k k2 v h2]

/-! ## Facts about the hex output of `derive_code` -/

theorem length_sha256_hexChars (msg : List Nat) : (sha256_hexChars msg).length = 64 := by
  unfold sha256_hexChars
  rcases (chunks64 (sha256pad msg)).foldl compressBlock H0 with ⟨a, b, c, d, e, f, g, h⟩
  simp [wordToHex]

theorem isHexChar_hexDigit (n : Nat) (h : n < 16) : isHexChar (hexDigit n) = true := by
  interval_cases n <;> decide

theorem mem_wordToHex_isHexChar (w : Nat) (c : Char) (h : c ∈ wordToHex w) :
    isHexChar c = true := by
  simp only [wordToHex, List.mem_cons, List.not_mem_nil, or_false] at h
  rcases h with h | h | h | h | h | h | h | h <;>
    (subst h; exact isHexChar_hexDigit _ (Nat.mod_lt _ (by norm_num)))

theorem mem_sha256_hexChars_isHexChar (msg : List Nat) (c : Char)
    (hc : c ∈ sha256_hexChars msg) : isHexChar c = true := by
  unfold sha256_hexChars at hc
  rcases (chunks64 (sha256pad msg)).foldl compressBlock H0 with ⟨w1, w2, w3, w4, w5, w6, w7, w8⟩
  simp only [List.mem_append] at hc
  rcases hc with ((((((h | h) | h) | h) | h) | h) | h) | h <;>
    exact mem_wordToHex_isHexChar _ _ h

theorem normalize_of_hasScheme (u : String) (h : hasScheme u = true) : normalize_url u = u := by
  simp [normalize_url, h]

/-! ## Claim theorems -/

/-- Claim C4: `derive_code(u)` is the first 8 characters of the lowercase
hexadecimal SHA-256 digest of the UTF-8 bytes of `u`; it is deterministic,
always an 8-character lowercase-hex string, and total (no failure modes). -/
theorem C4_derive_code_spec (u : String) :
    derive_code u = ⟨(sha256_hexChars (utf8Bytes u)).take 8⟩ ∧
    derive_code u = derive_code u ∧
    (derive_code u).length = 8 ∧
    (derive_code u).data.all isHexChar = true := by
  refine ⟨rfl, rfl, ?_, ?_⟩
  · show ((sha256_hexChars (utf8Bytes u)).take 8).length = 8
    rw [List.length_take, length_sha256_hexChars]
    norm_num
  · show ((sha256_hexChars (utf8Bytes u)).take 8).all isHexChar = true
    rw [List.all_eq_true]
    intro c hc
    exact mem_sha256_hexChars_isHexChar _ c (List.mem_of_mem_take hc)

theorem shorten_url_fst (dbOk : Bool) (now : Nat) (s : StoreState) (u : String) :
    (shorten_url dbOk now s u).1 = derive_code u := by
  simp only [shorten_url]
  split_ifs <;> rfl

/-- Claim C3: `create` is idempotent — both calls return the same derived
code, the second call raises no error (the model is total: every branch of
`shorten_url` returns a code), and when a record with that code already
exists in the durable tier the operation returns the existing code and
leaves the state untouched. -/
theorem C3_create_idempotent (dbOk dbOk2 : Bool) (now now2 : Nat) (s : StoreState) (u : String) :
    (create dbOk now s u).1 = derive_code (normalize_url u) ∧
    (create dbOk2 now2 (create dbOk now s u).2 u).1 = (create dbOk now s u).1 ∧
    (∀ r, alookup s.table (derive_code (normalize_url u)) = some r →
      create true now s u = (derive_code (normalize_url u), s)) := by
  refine ⟨shorten_url_fst _ _ _ _, ?_, ?_⟩
  · simp only [create]
    rw [shorten_url_fst, shorten_url_fst]
  · intro r hr
    unfold create shorten_url
    simp [hr]

/-- Claim C6: a code absent from both the cache and the durable tier
resolves to not-found, and on a durable-tier error (`dbOk = false`) a cache
miss also resolves to not-found rather than propagating the failure. -/
theorem C6_resolve_not_found (s : StoreState) (c : String)
    (hc : alookup s.cache c = none) :
    (∀ dbOk, alookup s.table c = none → (redirect_url dbOk s c).1 = none) ∧
    (redirect_url false s c).1 = none := by
  constructor
  · intro dbOk ht
    cases dbOk <;> simp [redirect_url, hc, ht]
  · simp [redirect_url, hc]

/-- Claim C7: when the durable tier is unreachable, `create` does not raise
(the model is total), leaves the durable tier untouched, stores the record
in the in-process cache (there is room below capacity), and still returns
the derived short code. -/
theorem C7_degraded_create (now : Nat) (s : StoreState) (u : String)
    (hroom : s.cache.length < CACHE_SIZE) :
    create false now s u =
      (derive_code (normalize_url u),
        ⟨ainsert s.cache (derive_code (normalize_url u)) ⟨normalize_url u, now, 0⟩, s.table⟩) ∧
    (create false now s u).2.table = s.table ∧
    alookup (create false now s u).2.cache (derive_code (normalize_url u)) =
      some ⟨normalize_url u, now, 0⟩ := by
  have h : create false now s u =
      (derive_code (normalize_url u),
        ⟨ainsert s.cache (derive_code (normalize_url u)) ⟨normalize_url u, now, 0⟩, s.table⟩) := by
    simp [create, shorten_url, hroom]
  refine ⟨h, by rw [h], ?_⟩
  rw [h]
  exact alookup_ainsert_self _ _ _

/-- Claim C8: `get_stats` is read-only — it leaves the whole store state
(cache contents and every click counter in both tiers) unchanged — and it
follows the same cache-then-durable lookup order as `resolve`: on the same
state it finds a record exactly when `resolve` does. -/
theorem C8_stats_read_only (dbOk : Bool) (s : StoreState) (c : String) :
    (get_url_stats dbOk s c).2 = s ∧
    (get_url_stats dbOk s c).1.isSome = (redirect_url dbOk s c).1.isSome := by
  rcases h1 : alookup s.cache c with _ | r
  · cases dbOk
    · simp [get_url_stats, redirect_url, h1]
    · rcases h2 : alookup s.table c with _ | r2
      · simp [get_url_stats, redirect_url, h1, h2]
      · constructor
        · simp [get_url_stats, h1, h2]
        · simp only [get_url_stats, redirect_url, h1, h2]
          split_ifs <;> simp
  · simp [get_url_stats, redirect_url, h1]

/-- Claim C10: a cache-miss resolve that finds the record in the durable
tier with the cache below capacity increments the durable click counter but
populates the cache with the record as read (pre-increment): afterwards the
cached clicks lag the durable clicks by one, and a cache-hit `get_stats`
reports one fewer click than the durable tier holds. -/
theorem C10_stale_cache_populate (s : StoreState) (c : String) (r : UrlRecord)
    (hc : alookup s.cache c = none) (ht : alookup s.table c = some r)
    (hroom : s.cache.length < CACHE_SIZE) :
    (redirect_url true s c).1 = some r.long_url ∧
    alookup (redirect_url true s c).2.cache c = some r ∧
    alookup (redirect_url true s c).2.table c = some ⟨r.long_url, r.created_at, r.clicks + 1⟩ ∧
    (get_url_stats true (redirect_url true s c).2 c).1.map UrlStats.clicks = some r.clicks := by
  have h : redirect_url true s c =
      (some r.long_url,
        ⟨ainsert s.cache c r, ainsert s.table c ⟨r.long_url, r.created_at, r.clicks + 1⟩⟩) := by
    simp [redirect_url, hc, ht, hroom]
  refine ⟨by rw [h], ?_, ?_, ?_⟩
  · rw [h]; exact alookup_ainsert_self _ _ _
  · rw [h]; exact alookup_ainsert_self _ _ _
  · rw [h]
    simp [get_url_stats, alookup_ainsert_self]

theorem isPrefixOf_append_self (l l2 : List Char) : l.isPrefixOf (l ++ l2) = true := by
  induction l with
  | nil => simp [List.isPrefixOf]
  | cons x xs ih => simp [List.isPrefixOf, ih]

theorem hasScheme_normalize (u : String) : hasScheme (normalize_url u) = true := by
  by_cases h : hasScheme u = true
  · rw [normalize_of_hasScheme u h]; exact h
  · have h2 : normalize_url u = "https://" ++ u := by simp [normalize_url, h]
    rw [h2]
    simp only [hasScheme, startsWithPy, Bool.or_eq_true]
    right
    rw [String.data_append]
    exact isPrefixOf_append_self _ _

/-- Claim C1: round-trip — for a URL `u` already carrying a scheme, with the
durable tier available and every record already stored under the derived
code (either tier) holding that same URL, a `resolve` of the code returned
by `create(u)` succeeds and yields exactly `u`. -/
theorem C1_round_trip (now : Nat) (s : StoreState) (u : String)
    (hu : hasScheme u = true)
    (hc : ∀ r, alookup s.cache (derive_code u) = some r → r.long_url = u)
    (ht : ∀ r, alookup s.table (derive_code u) = some r → r.long_url = u) :
    (redirect_url true (create true now s u).2 (create true now s u).1).1 = some u := by
  have hnorm : normalize_url u = u := normalize_of_hasScheme u hu
  have hfst : (create true now s u).1 = derive_code u := by
    rw [create, hnorm]; exact shorten_url_fst _ _ _ _
  rw [hfst]
  rcases h1 : alookup s.table (derive_code u) with _ | r1
  · by_cases h2 : s.cache.length < CACHE_SIZE
    · have hstate : (create true now s u).2 =
          ⟨ainsert s.cache (derive_code u) ⟨u, now, 0⟩,
           ainsert s.table (derive_code u) ⟨u, now, 0⟩⟩ := by
        rw [create, hnorm]
        simp [shorten_url, h1, h2]
      rw [hstate]
      simp [redirect_url, alookup_ainsert_self]
    · have hstate : (create true now s u).2 =
          ⟨s.cache, ainsert s.table (derive_code u) ⟨u, now, 0⟩⟩ := by
        rw [create, hnorm]
        simp [shorten_url, h1, h2]
      rw [hstate]
      rcases h3 : alookup s.cache (derive_code u) with _ | r2
      · simp only [redirect_url, h3, alookup_ainsert_self]
        split_ifs <;> rfl
      · simp [redirect_url, h3, hc r2 h3]
  · have hstate : (create true now s u).2 = s := by
      rw [create, hnorm]
      simp [shorten_url, h1]
    rw [hstate]
    rcases h3 : alookup s.cache (derive_code u) with _ | r2
    · simp only [redirect_url, h3, h1]
      split_ifs <;> simp [ht r1 h1]
    · simp [redirect_url, h3, hc r2 h3]

/-- Claim C2 fails as stated: a record with clicks = 0 present only in the
durable tier (the cache is empty, as after a process restart), is resolved
successfully twice, yet `get_stats` afterwards reports clicks = 1, not 2:
the first resolve increments the durable counter but caches the
pre-increment record, and the second resolve increments that stale cached
counter. -/
theorem C2_counterexample :
    (redirect_url true ⟨[], [("aaaaaaaa", ⟨"https://x.com", 5, 0⟩)]⟩ "aaaaaaaa").1.isSome = true ∧
    (redirect_url true
        (redirect_url true ⟨[], [("aaaaaaaa", ⟨"https://x.com", 5, 0⟩)]⟩ "aaaaaaaa").2
        "aaaaaaaa").1.isSome = true ∧
    (get_url_stats true
        (resolveN true "aaaaaaaa" 2 ⟨[], [("aaaaaaaa", ⟨"https://x.com", 5, 0⟩)]⟩)
        "aaaaaaaa").1.map UrlStats.clicks = some 1 := by
  decide

theorem resolveN_cache_clicks (dbOk : Bool) (c : String) (n : Nat) :
    ∀ (s : StoreState) (lu : String) (ca ck : Nat),
      alookup s.cache c = some ⟨lu, ca, ck⟩ →
      alookup (resolveN dbOk c n s).cache c = some ⟨lu, ca, ck + n⟩ := by
  induction n with
  | zero => intro s lu ca ck h; simpa [resolveN] using h
  | succ n ih =>
      intro s lu ca ck h
      have hcache : (redirect_url dbOk s c).2.cache = ainsert s.cache c ⟨lu, ca, ck + 1⟩ := by
        simp [redirect_url, h]
      have hnext : alookup (redirect_url dbOk s c).2.cache c = some ⟨lu, ca, ck + 1⟩ := by
        rw [hcache]; exact alookup_ainsert_self _ _ _
      have h2 := ih _ _ _ _ hnext
      rw [show ck + (n + 1) = ck + 1 + n by omega]
      simpa [resolveN] using h2

/-- Claim C2 (amended): each successful cache-hit resolve increments the
cached click counter by exactly 1 and leaves the durable tier untouched;
and when the record sits in the cache with clicks = 0 — as `create` leaves
it when the cache is below capacity — `get_stats` after N resolves reports
clicks = N.  The unamended claim fails when the record enters the cache by
a durable-tier resolve, which caches the pre-increment count (see the
counterexample and claim C10). -/
theorem C2_click_count (dbOk : Bool) (s : StoreState) (c : String)
    (lu : String) (ca : Nat) (n : Nat)
    (hr : alookup s.cache c = some ⟨lu, ca, 0⟩) :
    (redirect_url dbOk s c).1 = some lu ∧
    alookup (redirect_url dbOk s c).2.cache c = some ⟨lu, ca, 1⟩ ∧
    (redirect_url dbOk s c).2.table = s.table ∧
    (get_url_stats dbOk (resolveN dbOk c n s) c).1.map UrlStats.clicks = some n := by
  have h1 : redirect_url dbOk s c = (some lu, ⟨ainsert s.cache c ⟨lu, ca, 1⟩, s.table⟩) := by
    simp [redirect_url, hr]
  have h2 := resolveN_cache_clicks dbOk c n s lu ca 0 hr
  refine ⟨by rw [h1], by rw [h1]; exact alookup_ainsert_self _ _ _, by rw [h1], ?_⟩
  simp [get_url_stats, h2]

/-- Claim C5: `create` normalizes its input before deriving the code and
storing — the durable record carries the normalized URL, the normalized URL
always has a scheme, and `"example.com/no-scheme"` normalizes to
`"https://example.com/no-scheme"`. -/
theorem C5_normalization (now : Nat) (s : StoreState) (u : String)
    (hfresh : alookup s.table (derive_code (normalize_url u)) = none) :
    alookup (create true now s u).2.table (derive_code (normalize_url u)) =
      some ⟨normalize_url u, now, 0⟩ ∧
    hasScheme (normalize_url u) = true ∧
    normalize_url "example.com/no-scheme" = "https://example.com/no-scheme" := by
  refine ⟨?_, hasScheme_normalize u, by decide⟩
  have htable : (create true now s u).2.table =
      ainsert s.table (derive_code (normalize_url u)) ⟨normalize_url u, now, 0⟩ := by
    by_cases h2 : s.cache.length < CACHE_SIZE <;>
      simp [create, shorten_url, hfresh, h2]
  rw [htable]
  exact alookup_ainsert_self _ _ _

theorem get_url_stats_snd (dbOk : Bool) (s : StoreState) (c : String) :
    (get_url_stats dbOk s c).2 = s := by
  rcases h1 : alookup s.cache c with _ | r
  · cases dbOk
    · simp [get_url_stats, h1]
    · rcases h2 : alookup s.table c with _ | r2 <;> simp [get_url_stats, h1, h2]
  · simp [get_url_stats, h1]

theorem shorten_url_cache_cases (dbOk : Bool) (now : Nat) (s : StoreState) (u : String) :
    (shorten_url dbOk now s u).2.cache = s.cache ∨
    (s.cache.length < CACHE_SIZE ∧
      (shorten_url dbOk now s u).2.cache = ainsert s.cache (derive_code u) ⟨u, now, 0⟩) := by
  cases dbOk
  · by_cases h2 : s.cache.length < CACHE_SIZE
    · right; exact ⟨h2, by simp [shorten_url, h2]⟩
    · left; simp [shorten_url, h2]
  · by_cases h1 : (alookup s.table (derive_code u)).isSome
    · left; simp [shorten_url, h1]
    · by_cases h2 : s.cache.length < CACHE_SIZE
      · right; exact ⟨h2, by simp [shorten_url, h1, h2]⟩
      · left; simp [shorten_url, h1, h2]

theorem redirect_url_cache_cases (dbOk : Bool) (s : StoreState) (c : String) :
    (redirect_url dbOk s c).2.cache = s.cache ∨
    (∃ r, alookup s.cache c = some r ∧
      (redirect_url dbOk s c).2.cache =
        ainsert s.cache c ⟨r.long_url, r.created_at, r.clicks + 1⟩) ∨
    (s.cache.length < CACHE_SIZE ∧
      ∃ r, (redirect_url dbOk s c).2.cache = ainsert s.cache c r) := by
  rcases h1 : alookup s.cache c with _ | r
  · cases dbOk
    · left; simp [redirect_url, h1]
    · rcases h2 : alookup s.table c with _ | r2
      · left; simp [redirect_url, h1, h2]
      · by_cases h3 : s.cache.length < CACHE_SIZE
        · right; right
          exact ⟨h3, r2, by simp [redirect_url, h1, h2, h3]⟩
        · left; simp [redirect_url, h1, h2, h3]
  · right; left
    refine ⟨r, rfl, ?_⟩
    simp [redirect_url, h1]

/-- Claim C9: every operation keeps the cache at or below its capacity of
100 entries; an entry is added only when the cache is strictly below
capacity (at capacity the key set is unchanged); no cached key is ever
removed; and a URL created while the cache is at capacity is still
resolvable through the durable tier. -/
theorem C9_cache_bounded (dbOk : Bool) (now : Nat) (s : StoreState) (u c : String)
    (hinv : s.cache.length ≤ CACHE_SIZE) :
    ((shorten_url dbOk now s u).2.cache.length ≤ CACHE_SIZE ∧
     (redirect_url dbOk s c).2.cache.length ≤ CACHE_SIZE ∧
     (get_url_stats dbOk s c).2.cache.length ≤ CACHE_SIZE) ∧
    ((∀ k, (alookup s.cache k).isSome → (alookup (shorten_url dbOk now s u).2.cache k).isSome) ∧
     (∀ k, (alookup s.cache k).isSome → (alookup (redirect_url dbOk s c).2.cache k).isSome) ∧
     (∀ k, (alookup s.cache k).isSome → (alookup (get_url_stats dbOk s c).2.cache k).isSome)) ∧
    (CACHE_SIZE ≤ s.cache.length →
      (∀ k, (alookup (shorten_url dbOk now s u).2.cache k).isSome = (alookup s.cache k).isSome) ∧
      (∀ k, (alookup (redirect_url dbOk s c).2.cache k).isSome = (alookup s.cache k).isSome)) ∧
    (CACHE_SIZE ≤ s.cache.length →
      alookup s.cache (derive_code (normalize_url u)) = none →
      alookup s.table (derive_code (normalize_url u)) = none →
      (redirect_url true (create true now s u).2 (derive_code (normalize_url u))).1 =
        some (normalize_url u)) := by
  have hstats := get_url_stats_snd dbOk s c
  have hlen1 : (shorten_url dbOk now s u).2.cache.length ≤ CACHE_SIZE := by
    rcases shorten_url_cache_cases dbOk now s u with hs | ⟨hlt, hs⟩
    · rw [hs]; exact hinv
    · rw [hs]
      have := length_ainsert_le s.cache (derive_code u) ⟨u, now, 0⟩
      omega
  have hlen2 : (redirect_url dbOk s c).2.cache.length ≤ CACHE_SIZE := by
    rcases redirect_url_cache_cases dbOk s c with hs | ⟨r, hrk, hs⟩ | ⟨hlt, r, hs⟩
    · rw [hs]; exact hinv
    · rw [hs, length_ainsert_of_isSome _ _ _ (by simp [hrk])]
      exact hinv
    · rw [hs]
      have := length_ainsert_le s.cache c r
      omega
  have hmem1 : ∀ k, (alookup s.cache k).isSome →
      (alookup (shorten_url dbOk now s u).2.cache k).isSome := by
    intro k hk
    rcases shorten_url_cache_cases dbOk now s u with hs | ⟨hlt, hs⟩ <;> rw [hs]
    · exact hk
    · exact isSome_alookup_ainsert _ _ _ _ hk
  have hmem2 : ∀ k, (alookup s.cache k).isSome →
      (alookup (redirect_url dbOk s c).2.cache k).isSome := by
    intro k hk
    rcases redirect_url_cache_cases dbOk s c with hs | ⟨r, hrk, hs⟩ | ⟨hlt, r, hs⟩ <;> rw [hs]
    · exact hk
    · exact isSome_alookup_ainsert _ _ _ _ hk
    · exact isSome_alookup_ainsert _ _ _ _ hk
  have hfull1 : CACHE_SIZE ≤ s.cache.length →
      ∀ k, (alookup (shorten_url dbOk now s u).2.cache k).isSome =
        (alookup s.cache k).isSome := by
    intro hfull k
    rcases shorten_url_cache_cases dbOk now s u with hs | ⟨hlt, hs⟩
    · rw [hs]
    · omega
  have hfull2 : CACHE_SIZE ≤ s.cache.length →
      ∀ k, (alookup (redirect_url dbOk s c).2.cache k).isSome =
        (alookup s.cache k).isSome := by
    intro hfull k
    rcases redirect_url_cache_cases dbOk s c with hs | ⟨r, hrk, hs⟩ | ⟨hlt, r, hs⟩
    · rw [hs]
    · rw [hs]
      exact alookup_ainsert_isSome_eq _ _ _ (by simp [hrk]) k
    · omega
  refine ⟨⟨hlen1, hlen2, by rw [hstats]; exact hinv⟩,
          ⟨hmem1, hmem2, fun k hk => by rw [hstats]; exact hk⟩,
          fun hfull => ⟨hfull1 hfull, hfull2 hfull⟩, ?_⟩
  intro hfull hcnone htnone
  have hnl : ¬ s.cache.length < CACHE_SIZE := by omega
  have hstate : (create true now s u).2 =
      ⟨s.cache, ainsert s.table (derive_code (normalize_url u)) ⟨normalize_url u, now, 0⟩⟩ := by
    simp [create, shorten_url, htnone, hnl]
  rw [hstate]
  simp only [redirect_url, hcnone, alookup_ainsert_self]
  split_ifs <;> rfl

/-! ## Concrete witnesses instantiating the hypothesis-bearing claim theorems -/

theorem C1_witness :
    (redirect_url true (create true 10 emptyState "https://example.com/long").2
        (create true 10 emptyState "https://example.com/long").1).1 =
      some "https://example.com/long" :=
  C1_round_trip 10 emptyState "https://example.com/long" (by decide)
    (fun r hr => by simp [emptyState, alookup] at hr)
    (fun r hr => by simp [emptyState, alookup] at hr)

theorem C2_witness :
    (redirect_url true ⟨[("k", ⟨"https://a.com", 3, 0⟩)], []⟩ "k").1 = some "https://a.com" ∧
    alookup (redirect_url true ⟨[("k", ⟨"https://a.com", 3, 0⟩)], []⟩ "k").2.cache "k" =
      some ⟨"https://a.com", 3, 1⟩ ∧
    (redirect_url true ⟨[("k", ⟨"https://a.com", 3, 0⟩)], []⟩ "k").2.table = [] ∧
    (get_url_stats true (resolveN true "k" 2 ⟨[("k", ⟨"https://a.com", 3, 0⟩)], []⟩) "k").1.map
      UrlStats.clicks = some 2 :=
  C2_click_count true ⟨[("k", ⟨"https://a.com", 3, 0⟩)], []⟩ "k" "https://a.com" 3 2 (by decide)

def wKey : String := derive_code (normalize_url "https://a.com")

def wState : StoreState := ⟨[], [(wKey, ⟨"https://a.com", 1, 0⟩)]⟩

theorem C3_witness :
    (create true 5 wState "https://a.com").1 = wKey ∧
    (create true 6 (create true 5 wState "https://a.com").2 "https://a.com").1 =
      (create true 5 wState "https://a.com").1 ∧
    create true 5 wState "https://a.com" = (wKey, wState) := by
  have h := C3_create_idempotent true true 5 6 wState "https://a.com"
  exact ⟨h.1, h.2.1, h.2.2 ⟨"https://a.com", 1, 0⟩ (by simp [wState, wKey, alookup])⟩

theorem C5_witness :
    alookup (create true 2 emptyState "example.com/no-scheme").2.table
        (derive_code (normalize_url "example.com/no-scheme")) =
      some ⟨normalize_url "example.com/no-scheme", 2, 0⟩ ∧
    hasScheme (normalize_url "example.com/no-scheme") = true ∧
    normalize_url "example.com/no-scheme" = "https://example.com/no-scheme" :=
  C5_normalization 2 emptyState "example.com/no-scheme" rfl

theorem C6_witness :
    (redirect_url true emptyState "zzzzzzzz").1 = none ∧
    (redirect_url false emptyState "zzzzzzzz").1 = none :=
  ⟨(C6_resolve_not_found emptyState "zzzzzzzz" rfl).1 true rfl,
   (C6_resolve_not_found emptyState "zzzzzzzz" rfl).2⟩

theorem C7_witness :
    create false 4 emptyState "example.com" =
      (derive_code (normalize_url "example.com"),
        ⟨ainsert emptyState.cache (derive_code (normalize_url "example.com"))
            ⟨normalize_url "example.com", 4, 0⟩, emptyState.table⟩) ∧
    (create false 4 emptyState "example.com").2.table = emptyState.table ∧
    alookup (create false 4 emptyState "example.com").2.cache
        (derive_code (normalize_url "example.com")) =
      some ⟨normalize_url "example.com", 4, 0⟩ :=
  C7_degraded_create 4 emptyState "example.com" (by decide)

theorem C9_witness :
    ((shorten_url true 1 emptyState "https://w.org").2.cache.length ≤ CACHE_SIZE ∧
     (redirect_url true emptyState "k").2.cache.length ≤ CACHE_SIZE ∧
     (get_url_stats true emptyState "k").2.cache.length ≤ CACHE_SIZE) ∧
    ((∀ k, (alookup emptyState.cache k).isSome →
        (alookup (shorten_url true 1 emptyState "https://w.org").2.cache k).isSome) ∧
     (∀ k, (alookup emptyState.cache k).isSome →
        (alookup (redirect_url true emptyState "k").2.cache k).isSome) ∧
     (∀ k, (alookup emptyState.cache k).isSome →
        (alookup (get_url_stats true emptyState "k").2.cache k).isSome)) ∧
    (CACHE_SIZE ≤ emptyState.cache.length →
      (∀ k, (alookup (shorten_url true 1 emptyState "https://w.org").2.cache k).isSome =
        (alookup emptyState.cache k).isSome) ∧
      (∀ k, (alookup (redirect_url true emptyState "k").2.cache k).isSome =
        (alookup emptyState.cache k).isSome)) ∧
    (CACHE_SIZE ≤ emptyState.cache.length →
      alookup emptyState.cache (derive_code (normalize_url "https://w.org")) = none →
      alookup emptyState.table (derive_code (normalize_url "https://w.org")) = none →
      (redirect_url true (create true 1 emptyState "https://w.org").2
          (derive_code (normalize_url "https://w.org"))).1 =
        some (normalize_url "https://w.org")) :=
  C9_cache_bounded true 1 emptyState "https://w.org" "k" (by decide)

theorem C10_witness :
    (redirect_url true ⟨[], [("c0ffee00", ⟨"https://t.io", 9, 4⟩)]⟩ "c0ffee00").1 =
      some "https://t.io" ∧
    alookup (redirect_url true ⟨[], [("c0ffee00", ⟨"https://t.io", 9, 4⟩)]⟩ "c0ffee00").2.cache
        "c0ffee00" = some ⟨"https://t.io", 9, 4⟩ ∧
    alookup (redirect_url true ⟨[], [("c0ffee00", ⟨"https://t.io", 9, 4⟩)]⟩ "c0ffee00").2.table
        "c0ffee00" = some ⟨"https://t.io", 9, 5⟩ ∧
    (get_url_stats true
        (redirect_url true ⟨[], [("c0ffee00", ⟨"https://t.io", 9, 4⟩)]⟩ "c0ffee00").2
        "c0ffee00").1.map UrlStats.clicks = some 4 :=
  C10_stale_cache_populate ⟨[], [("c0ffee00", ⟨"https://t.io", 9, 4⟩)]⟩ "c0ffee00"
    ⟨"https://t.io", 9, 4⟩ rfl (by decide) (by decide)

end UrlShortener
